import Mathlib

/-!
Shallow embedding of `src/shooting-range/playground.ts` (the game-state
orchestrator of the shooting-range game) and proofs about it.

Numbers are modelled as exact rationals (`ℚ`); JavaScript `Math.round` is
modelled by `jsRound` (round half toward positive infinity).  The collections
`bullets` and `targets` are Lean lists; the source mutates entries in place and
never removes them, so list indices model object references faithfully.  The
external collaborators (`Gun`, `Bullet`, `Target`, `Stats` from their own
files, which are not part of the orchestrator source) are modelled as plain
records of the fields the orchestrator reads and writes; the target hit-test
`Target.hitByBullet` is an opaque geometric predicate and is therefore taken
as a parameter `hb : Target → Bullet → Bool` of every operation that uses it.
-/

namespace ShootingRange

/-- JavaScript `Math.round`: round half toward `+∞`. -/
def jsRound (q : ℚ) : ℚ := ((q + 1/2).floor : ℚ)

/-- Source `perOfNum(per, num) = Math.round(per * num / 100)`. -/
def perOfNum (per num : ℚ) : ℚ := jsRound (per * num / 100)

/-- Modelled from the spec: the tri-state bullet status of the external
`Bullet` collaborator (in-flight / hit / miss). -/
inductive BulletStatus
  | inFlight
  | hit
  | miss
deriving DecidableEq, Repr

/-- Modelled from the spec: the fields of the external `Bullet` collaborator
that the orchestrator reads and writes (`x`, `y`, `radius`, `status`).  A
freshly constructed bullet is in-flight. -/
structure Bullet where
  x : ℚ
  y : ℚ
  radius : ℚ
  status : BulletStatus
deriving DecidableEq, Repr

/-- Modelled from the spec: the fields of the external `Target` collaborator
that the orchestrator reads and writes (`x`, `y`, `width`, `height`, `hit`).
A freshly constructed target is not hit. -/
structure Target where
  x : ℚ
  y : ℚ
  width : ℚ
  height : ℚ
  hit : Bool
deriving DecidableEq, Repr

/-- Modelled from the spec: the fields of the external `Gun` collaborator the
orchestrator reads (`x`, `y`, `width`, `height`). -/
structure Gun where
  x : ℚ
  y : ℚ
  width : ℚ
  height : ℚ
deriving DecidableEq, Repr

/-- Modelled from the spec: the external `Stats` collaborator.  `update`
receives the fired/hit/miss counts; we record the last received triple. -/
structure Stats where
  x : ℚ
  y : ℚ
  fontSize : ℚ
  fired : ℕ
  hits : ℕ
  miss : ℕ
deriving DecidableEq, Repr

/-- Method `update(fired, hit, miss)` of the external `Stats` collaborator:
store the three counts. -/
def Stats.update (s : Stats) (fired hits miss : ℕ) : Stats :=
  { s with fired := fired, hits := hits, miss := miss }

/-- The orchestrator state: the fields of the `Playground` class (rendering
handles omitted).  `closestTarget` is a reference into `targets`, modelled as
an index. -/
structure Playground where
  width : ℚ
  height : ℚ
  gameOver : Bool
  gun : Gun
  gunStep : ℚ
  bullets : List Bullet
  bulletsLen : ℕ
  bulletStep : ℚ
  targets : List Target
  targetsLen : ℕ
  closestTarget : Option ℕ
  stats : Stats
deriving DecidableEq, Repr

/-- In-place update of one list entry (JavaScript `l[i].f = v`): apply `f` to
the entry at index `i`, leave everything else unchanged. -/
def listModify : List α → ℕ → (α → α) → List α
  | [], _, _ => []
  | a :: l, 0, f => f a :: l
  | a :: l, n + 1, f => a :: listModify l n f

/-- A loop `for (i = 0; i < n; ++i) l[i] = f(l[i])`: map `f` over the first
`n` entries of `l`, leave the rest unchanged. -/
def mapUpTo (n : ℕ) (f : α → α) (l : List α) : List α :=
  (l.take n).map f ++ l.drop n

/-- The `Playground` constructor: computes the derived layout constants
(`createStats` and `createGun` values, `gunStep`, `bulletStep`).  The
collections are uninitialized in the source until `newGame`; we start them
empty. -/
def mkPlayground (width height : ℚ) : Playground :=
  let statsX := perOfNum 2 width
  let statsY := perOfNum 95 height
  let fontSize := perOfNum 2.5 height
  let gunW := perOfNum 6 width
  let gunH := perOfNum 6 width
  let gunX := jsRound (width / 2 - gunW / 2)
  let gunY := jsRound (statsY - fontSize - gunH)
  { width := width
    height := height
    gameOver := false
    gun := ⟨gunX, gunY, gunW, gunH⟩
    gunStep := perOfNum 1.7 width
    bullets := []
    bulletsLen := 0
    bulletStep := perOfNum 1 height
    targets := []
    targetsLen := 0
    closestTarget := none
    stats := ⟨statsX, statsY, fontSize, 0, 0, 0⟩ }

/-- Source `createBullet()`: append one bullet at the gun's horizontal center, at the
gun's `y`, radius `1%` of the width; refresh `bulletsLen`. -/
def createBullet (p : Playground) : Playground :=
  let x := p.gun.x + p.gun.width / 2
  let y := p.gun.y
  let radius := perOfNum 1 p.width
  let bullets := p.bullets ++ [⟨x, y, radius, BulletStatus.inFlight⟩]
  { p with bullets := bullets, bulletsLen := bullets.length }

/-- The append loop of `createTargets`: push `n` targets starting at `x`,
advancing `x` by `width + gap` after each. -/
def appendRow (x y width height gap : ℚ) : ℕ → List Target → List Target
  | 0, acc => acc
  | n + 1, acc =>
      appendRow (x + (width + gap)) y width height gap n
        (acc ++ [⟨x, y, width, height, false⟩])

/-- Source `createTargets()`: shift every currently un-hit existing target (the first
`targetsLen` entries) down by its height plus the gap, then append a row of 12
new targets; refresh `targetsLen`. -/
def createTargets (p : Playground) : Playground :=
  let targetsInRow : ℕ := 12
  let gap := perOfNum 1.8 p.width
  let size := jsRound ((p.width - gap) / (targetsInRow : ℚ))
  let width := size - gap
  let height := size - gap
  let shifted :=
    mapUpTo p.targetsLen
      (fun t => if t.hit then t else { t with y := t.y + t.height + gap })
      p.targets
  let ts := appendRow gap gap width height gap targetsInRow shifted
  { p with targets := ts, targetsLen := ts.length }

/-- The body of the `drawBullets` loop for one bullet: skip bullets already
hit or miss; mark a bullet that has exited the top (`y + radius <= 0`) as
miss; otherwise move it up by `bulletStep`. -/
def stepBullet (bulletStep : ℚ) (b : Bullet) : Bullet :=
  if b.status = BulletStatus.hit ∨ b.status = BulletStatus.miss then b
  else if b.y + b.radius ≤ 0 then { b with status := BulletStatus.miss }
  else { b with y := b.y - bulletStep }

/-- Source `drawBullets()`: run the per-bullet step over the first `bulletsLen`
bullets. -/
def drawBullets (p : Playground) : Playground :=
  { p with bullets := mapUpTo p.bulletsLen (stepBullet p.bulletStep) p.bullets }

/-- The inner loop of `drawTargets`: first index `j < bulletsLen` whose bullet
passes the hit-test against `t` (the scan does not look at the bullet's
status). -/
def findHitBullet (hb : Target → Bullet → Bool) (t : Target)
    (bullets : List Bullet) (bulletsLen : ℕ) : Option ℕ :=
  (List.range bulletsLen).find? fun j =>
    match bullets[j]? with
    | some b => hb t b
    | none => false

/-- Mutable state of the `drawTargets` loop: the two collections (entries are
mutated in place) and the running closest-target reference. -/
structure DTState where
  targets : List Target
  bullets : List Bullet
  closest : Option ℕ
deriving DecidableEq, Repr

/-- The seeding `let closestTarget = targets[0]` of `drawTargets`: a reference
to the first target, or the absent value when there are no targets. -/
def seedClosest (ts : List Target) : Option ℕ :=
  if ts.isEmpty then none else some 0

/-- One iteration of the `drawTargets` loop at target index `i`: skip hit
targets; if some bullet passes the hit-test, mark the target hit and that
bullet's status `hit`; otherwise keep the target as the closest if it is
strictly more advanced than the current closest. -/
def drawTargetsStep (hb : Target → Bullet → Bool) (bulletsLen : ℕ)
    (s : DTState) (i : ℕ) : DTState :=
  match s.targets[i]? with
  | none => s
  | some t =>
    if t.hit then s
    else
      match findHitBullet hb t s.bullets bulletsLen with
      | some j =>
          ⟨listModify s.targets i (fun t0 => { t0 with hit := true }),
           listModify s.bullets j (fun b => { b with status := BulletStatus.hit }),
           s.closest⟩
      | none =>
          match s.closest with
          | none => s
          | some cj =>
            match s.targets[cj]? with
            | none => s
            | some ct =>
              if t.y + t.height > ct.y + ct.height then
                ⟨s.targets, s.bullets, some i⟩
              else s

/-- Source `drawTargets()`: seed the closest-target reference with `targets[0]`, run
the loop over the first `targetsLen` targets, and store the results. -/
def drawTargets (hb : Target → Bullet → Bool) (p : Playground) : Playground :=
  let s := (List.range p.targetsLen).foldl (drawTargetsStep hb p.bulletsLen)
    ⟨p.targets, p.bullets, seedClosest p.targets⟩
  { p with targets := s.targets, bullets := s.bullets, closestTarget := s.closest }

/-- Count of bullets with status `hit` (the `hits` accumulator of
`drawStats`). -/
def countHit (l : List Bullet) : ℕ :=
  l.countP fun b => b.status = BulletStatus.hit

/-- Count of bullets with status `miss` (the `miss` accumulator of
`drawStats`). -/
def countMiss (l : List Bullet) : ℕ :=
  l.countP fun b => b.status = BulletStatus.miss

/-- Source `drawStats()`: recount hit/miss over the first `bulletsLen` bullets and
push `(bulletsLen, hits, miss)` to the stats collaborator. -/
def drawStats (p : Playground) : Playground :=
  let counted := p.bullets.take p.bulletsLen
  { p with stats := p.stats.update p.bulletsLen (countHit counted) (countMiss counted) }

/-- Source `checkGameOver()`: sets `gameOver = closest && closest.y + closest.height >= gun.y` (the absent reference is falsy). -/
def checkGameOver (p : Playground) : Playground :=
  { p with
    gameOver :=
      match p.closestTarget with
      | none => false
      | some c =>
        match p.targets[c]? with
        | none => false
        | some t => t.y + t.height ≥ p.gun.y }

/-- Source `draw()`: the per-frame advance — move bullets, resolve collisions and the
closest target, update stats, evaluate the terminal condition (the rendering
calls have no state effect). -/
def draw (hb : Target → Bullet → Bool) (p : Playground) : Playground :=
  checkGameOver (drawStats (drawTargets hb (drawBullets p)))

/-- Source `newGame()`: reset the session state, push `(0,0,0)` to stats, spawn the
initial row of targets, render one frame. -/
def newGame (hb : Target → Bullet → Bool) (p : Playground) : Playground :=
  draw hb (createTargets
    { p with
      gameOver := false
      bullets := []
      bulletsLen := 0
      targets := []
      targetsLen := 0
      closestTarget := none
      stats := p.stats.update 0 0 0 })

/-- The public operations of the orchestrator that touch the collections. -/
inductive Op
  | opNewGame
  | opCreateBullet
  | opCreateTargets
  | opDraw
deriving DecidableEq, Repr

/-- Apply one public operation. -/
def applyOp (hb : Target → Bullet → Bool) (p : Playground) : Op → Playground
  | Op.opNewGame => newGame hb p
  | Op.opCreateBullet => createBullet p
  | Op.opCreateTargets => createTargets p
  | Op.opDraw => draw hb p

/-- Apply a sequence of public operations left to right. -/
def applyOps (hb : Target → Bullet → Bool) (p : Playground) (ops : List Op) :
    Playground :=
  ops.foldl (applyOp hb) p

/-! ### The pure recomputation of the closest target

`drawTargets` interleaves collision resolution with the closest-target scan;
the lemmas below show its result equals this pure scan over the final target
list. -/

/-- One iteration of the closest-target scan over a fixed target list. -/
def closestStep (ts : List Target) (c : Option ℕ) (i : ℕ) : Option ℕ :=
  match ts[i]? with
  | none => c
  | some t =>
    if t.hit then c
    else
      match c with
      | none => c
      | some cj =>
        match ts[cj]? with
        | none => c
        | some ct => if t.y + t.height > ct.y + ct.height then some i else c

/-- The closest-target reference `drawTargets` computes, as a function of the
target list alone: seed with `targets[0]`, keep the strictly most advanced
un-hit target among the first `len`. -/
def closestOf (ts : List Target) (len : ℕ) : Option ℕ :=
  (List.range len).foldl (closestStep ts) (seedClosest ts)

/-- The game-over condition as a function of the gun line and the target
list: the closest candidate exists and reaches the gun's `y`. -/
def gameOverOf (gunY : ℚ) (ts : List Target) (len : ℕ) : Bool :=
  match closestOf ts len with
  | none => false
  | some c =>
    match ts[c]? with
    | none => false
    | some t => t.y + t.height ≥ gunY

/-- Forward order on bullet statuses: a status may stay put, leave
`inFlight`, or be re-labelled from `miss` to `hit`; `hit` is terminal. -/
def statusForward (a b : BulletStatus) : Prop :=
  a = b ∨ a = BulletStatus.inFlight ∨ (a = BulletStatus.miss ∧ b = BulletStatus.hit)

instance : DecidablePred fun ab : BulletStatus × BulletStatus => statusForward ab.1 ab.2 :=
  fun _ => by unfold statusForward; infer_instance

/-- Both cached length counters agree with the collections. -/
def lenInv (p : Playground) : Prop :=
  p.bulletsLen = p.bullets.length ∧ p.targetsLen = p.targets.length

/-- A target evolves during the `drawTargets` loop only by having its `hit`
flag raised: geometry is untouched. -/
def tApprox (t t' : Target) : Prop :=
  t'.x = t.x ∧ t'.y = t.y ∧ t'.width = t.width ∧ t'.height = t.height ∧
    (t.hit = true → t'.hit = true)

/-- Relation `tApprox` lifted to optional targets (entries of the list at one index
before and after part of the loop). -/
def optApprox : Option Target → Option Target → Prop
  | none, none => True
  | some t, some t' => tApprox t t'
  | _, _ => False

/-- Hit-test predicate that never fires (no geometric overlap anywhere). -/
def hbNone : Target → Bullet → Bool := fun _ _ => false

/-- Hit-test predicate that always fires. -/
def hbAll : Target → Bullet → Bool := fun _ _ => true

/-- A geometric-style hit-test on the 100×50 field: a bullet at height 40
hits the target sitting at position (2, 2), and a bullet at height 39 hits
every target whose bottom edge has reached the gun line 41. -/
def hbC1 : Target → Bullet → Bool := fun t b =>
  decide (t.x = 2 ∧ t.y = 2 ∧ b.y = 40) || decide (41 ≤ t.y + t.height ∧ b.y = 39)

/-- A 100×50 session: spawn, fire, advance once (kills the target at (2,2)). -/
def pC1a : Playground := draw hbC1 (createBullet (newGame hbC1 (mkPlayground 100 50)))

/-- Five more spawned rows push the first row to the gun line; fire again. -/
def pC1b : Playground :=
  createBullet (createTargets (createTargets (createTargets (createTargets
    (createTargets pC1a)))))

/-- One more advance: the surviving first-row targets have reached the gun
line, so this advance sets `gameOver`. -/
def pC1c : Playground := draw hbC1 pC1b

/-- A 100×50 session with one bullet fired, before the advance on which the
always-firing hit-test resolves every target. -/
def pC2 : Playground := createBullet (newGame hbAll (mkPlayground 100 50))

/-- A hit-test that fires exactly on a miss-status bullet against a target
that has descended to height 200. -/
def hbC3 : Target → Bullet → Bool := fun t b =>
  decide (b.status = BulletStatus.miss ∧ t.y = 200)

/-- A 2000×100 session (gun line below zero): the fired bullet is already
above the exit boundary, so the first advance marks it miss. -/
def qC3a : Playground := draw hbC3 (createBullet (newGame hbC3 (mkPlayground 2000 100)))

/-- A 1500×100 session advanced until the fired bullet sits at `y = -14`,
one step above the exit boundary `y + radius ≤ 0`. -/
def pC4 : Playground :=
  (draw hbNone)^[16] (createBullet (newGame hbNone (mkPlayground 1500 100)))

/-- A 100×50 session with one freshly fired bullet (witness state). -/
def pW3 : Playground := createBullet (newGame hbNone (mkPlayground 100 50))

/-- A fresh 100×50 session (witness state). -/
def pW7 : Playground := newGame hbNone (mkPlayground 100 50)

/-! ### List helper lemmas -/

theorem length_listModify (l : List α) (i : ℕ) (f : α → α) :
    (listModify l i f).length = l.length := by
  induction l generalizing i with
  | nil => rfl
  | cons a l ih => cases i with
    | zero => rfl
    | succ n => simp [listModify, ih]

theorem getElem?_listModify_self (l : List α) (i : ℕ) (f : α → α) :
    (listModify l i f)[i]? = (l[i]?).map f := by
  induction l generalizing i with
  | nil => simp [listModify]
  | cons a l ih => cases i with
    | zero => simp [listModify]
    | succ n => simpa [listModify] using ih n

theorem getElem?_listModify_ne (l : List α) (i j : ℕ) (f : α → α) (h : i ≠ j) :
    (listModify l i f)[j]? = l[j]? := by
  induction l generalizing i j with
  | nil => simp [listModify]
  | cons a l ih =>
    cases i with
    | zero =>
      cases j with
      | zero => exact absurd rfl h
      | succ m => simp [listModify]
    | succ n =>
      cases j with
      | zero => simp [listModify]
      | succ m => simpa [listModify] using ih n m (by omega)

theorem mapUpTo_nil (n : ℕ) (f : α → α) : mapUpTo n f ([] : List α) = [] := by
  simp [mapUpTo]

theorem mapUpTo_zero (f : α → α) (l : List α) : mapUpTo 0 f l = l := by
  simp [mapUpTo]

theorem mapUpTo_cons (n : ℕ) (f : α → α) (a : α) (l : List α) :
    mapUpTo (n + 1) f (a :: l) = f a :: mapUpTo n f l := by
  simp [mapUpTo]

theorem length_mapUpTo (n : ℕ) (f : α → α) (l : List α) :
    (mapUpTo n f l).length = l.length := by
  simp [mapUpTo]; omega

theorem getElem?_mapUpTo_lt (n : ℕ) (f : α → α) (l : List α) (i : ℕ) (h : i < n) :
    (mapUpTo n f l)[i]? = (l[i]?).map f := by
  induction n generalizing l i with
  | zero => omega
  | succ n ih =>
    cases l with
    | nil => simp [mapUpTo_nil]
    | cons a l =>
      cases i with
      | zero => simp [mapUpTo_cons]
      | succ m => simpa [mapUpTo_cons] using ih l m (by omega)

theorem getElem?_mapUpTo_ge (n : ℕ) (f : α → α) (l : List α) (i : ℕ) (h : n ≤ i) :
    (mapUpTo n f l)[i]? = l[i]? := by
  induction n generalizing l i with
  | zero => simp [mapUpTo_zero]
  | succ n ih =>
    cases l with
    | nil => simp [mapUpTo_nil]
    | cons a l =>
      cases i with
      | zero => omega
      | succ m => simpa [mapUpTo_cons] using ih l m (by omega)

theorem appendRow_eq (x y w h g : ℚ) (n : ℕ) (acc : List Target) :
    appendRow x y w h g n acc =
      acc ++ (List.range n).map
        (fun i => ⟨x + (i : ℚ) * (w + g), y, w, h, false⟩ : ℕ → Target) := by
  induction n generalizing x acc with
  | zero => simp [appendRow]
  | succ n ih =>
    rw [appendRow, ih, List.range_succ_eq_map, List.map_cons, List.map_map]
    have hf :
        ((fun i => ⟨x + (i : ℚ) * (w + g), y, w, h, false⟩ : ℕ → Target) ∘ Nat.succ)
          = (fun i => ⟨(x + (w + g)) + (i : ℚ) * (w + g), y, w, h, false⟩ : ℕ → Target) := by
      funext i
      simp only [Function.comp]
      congr 1
      push_cast
      ring
    rw [hf]
    simp [List.append_assoc]

theorem findHitBullet_zero (hb : Target → Bullet → Bool) (t : Target)
    (bullets : List Bullet) : findHitBullet hb t bullets 0 = none := by
  simp [findHitBullet]

/-! ### Shape and preservation lemmas for the `drawTargets` loop -/

theorem tApprox_refl (t : Target) : tApprox t t :=
  ⟨rfl, rfl, rfl, rfl, fun h => h⟩

theorem tApprox_trans {a b c : Target} (h1 : tApprox a b) (h2 : tApprox b c) :
    tApprox a c := by
  obtain ⟨x1, y1, w1, h1', f1⟩ := h1
  obtain ⟨x2, y2, w2, h2', f2⟩ := h2
  exact ⟨x2.trans x1, y2.trans y1, w2.trans w1, h2'.trans h1', fun h => f2 (f1 h)⟩

theorem optApprox_refl (o : Option Target) : optApprox o o := by
  cases o with
  | none => trivial
  | some t => exact tApprox_refl t

theorem optApprox_trans {a b c : Option Target} (h1 : optApprox a b)
    (h2 : optApprox b c) : optApprox a c := by
  cases a <;> cases b <;> cases c <;> simp_all [optApprox]
  exact tApprox_trans h1 h2

/-- One loop iteration either does nothing to the state, resolves a hit
(raising one target's flag and one bullet's status), or only moves the
closest-target reference to the current index. -/
theorem drawTargetsStep_eq (hb : Target → Bullet → Bool) (bLen : ℕ)
    (s : DTState) (i : ℕ) :
    drawTargetsStep hb bLen s i = s ∨
    (∃ t j, s.targets[i]? = some t ∧ t.hit = false ∧
      findHitBullet hb t s.bullets bLen = some j ∧
      drawTargetsStep hb bLen s i =
        ⟨listModify s.targets i (fun t0 => { t0 with hit := true }),
         listModify s.bullets j (fun b => { b with status := BulletStatus.hit }),
         s.closest⟩) ∨
    (∃ t cj ct, s.targets[i]? = some t ∧ t.hit = false ∧
      findHitBullet hb t s.bullets bLen = none ∧ s.closest = some cj ∧
      s.targets[cj]? = some ct ∧ t.y + t.height > ct.y + ct.height ∧
      drawTargetsStep hb bLen s i = ⟨s.targets, s.bullets, some i⟩) := by
  unfold drawTargetsStep
  split
  · exact Or.inl rfl
  next t heq =>
    split
    next th => exact Or.inl rfl
    next th =>
      split
      next j hfb =>
        exact Or.inr (Or.inl ⟨t, j, heq, by simpa using th, hfb, rfl⟩)
      next hfb =>
        split
        · exact Or.inl rfl
        next hc =>
          split
          · exact Or.inl rfl
          next ct hct =>
            split
            next hcmp =>
              exact Or.inr (Or.inr ⟨t, _, ct, heq, by simpa using th, hfb, hc, hct,
                hcmp, rfl⟩)
            next hcmp => exact Or.inl rfl

theorem targets_length_drawTargetsStep (hb : Target → Bullet → Bool)
    (bLen : ℕ) (s : DTState) (i : ℕ) :
    (drawTargetsStep hb bLen s i).targets.length = s.targets.length := by
  rcases drawTargetsStep_eq hb bLen s i with h | ⟨t, j, _, _, _, h⟩ |
    ⟨t, cj, ct, _, _, _, _, _, _, h⟩ <;> rw [h] <;> simp [length_listModify]

theorem bullets_length_drawTargetsStep (hb : Target → Bullet → Bool)
    (bLen : ℕ) (s : DTState) (i : ℕ) :
    (drawTargetsStep hb bLen s i).bullets.length = s.bullets.length := by
  rcases drawTargetsStep_eq hb bLen s i with h | ⟨t, j, _, _, _, h⟩ |
    ⟨t, cj, ct, _, _, _, _, _, _, h⟩ <;> rw [h] <;> simp [length_listModify]

theorem targets_length_foldDT (hb : Target → Bullet → Bool) (bLen : ℕ)
    (r : List ℕ) : ∀ s : DTState,
    ((r.foldl (drawTargetsStep hb bLen) s).targets.length = s.targets.length) := by
  induction r with
  | nil => intro s; rfl
  | cons i r ih =>
    intro s
    rw [List.foldl_cons, ih, targets_length_drawTargetsStep]

theorem bullets_length_foldDT (hb : Target → Bullet → Bool) (bLen : ℕ)
    (r : List ℕ) : ∀ s : DTState,
    ((r.foldl (drawTargetsStep hb bLen) s).bullets.length = s.bullets.length) := by
  induction r with
  | nil => intro s; rfl
  | cons i r ih =>
    intro s
    rw [List.foldl_cons, ih, bullets_length_drawTargetsStep]

theorem targets_approx_drawTargetsStep (hb : Target → Bullet → Bool)
    (bLen : ℕ) (s : DTState) (i j : ℕ) :
    optApprox (s.targets[j]?) ((drawTargetsStep hb bLen s i).targets[j]?) := by
  rcases drawTargetsStep_eq hb bLen s i with h | ⟨t, j0, hti, hth, _, h⟩ |
    ⟨t, cj, ct, _, _, _, _, _, _, h⟩
  · rw [h]; exact optApprox_refl _
  · rw [h]
    by_cases hij : i = j
    · subst hij
      rw [getElem?_listModify_self, hti]
      exact ⟨rfl, rfl, rfl, rfl, fun hh => rfl⟩
    · rw [getElem?_listModify_ne _ _ _ _ hij]
      exact optApprox_refl _
  · rw [h]; exact optApprox_refl _

theorem targets_approx_foldDT (hb : Target → Bullet → Bool) (bLen : ℕ)
    (r : List ℕ) : ∀ (s : DTState) (j : ℕ),
    optApprox (s.targets[j]?) ((r.foldl (drawTargetsStep hb bLen) s).targets[j]?) := by
  induction r with
  | nil => intro s j; exact optApprox_refl _
  | cons i r ih =>
    intro s j
    rw [List.foldl_cons]
    exact optApprox_trans (targets_approx_drawTargetsStep hb bLen s i j) (ih _ j)

theorem targets_getElem?_drawTargetsStep_ne (hb : Target → Bullet → Bool)
    (bLen : ℕ) (s : DTState) (i j : ℕ) (hij : i ≠ j) :
    (drawTargetsStep hb bLen s i).targets[j]? = s.targets[j]? := by
  rcases drawTargetsStep_eq hb bLen s i with h | ⟨t, j0, _, _, _, h⟩ |
    ⟨t, cj, ct, _, _, _, _, _, _, h⟩
  · rw [h]
  · rw [h]; exact getElem?_listModify_ne _ _ _ _ hij
  · rw [h]

theorem targets_getElem?_foldDT_outside (hb : Target → Bullet → Bool)
    (bLen : ℕ) (r : List ℕ) : ∀ (s : DTState) (j : ℕ), (∀ i ∈ r, i ≠ j) →
    ((r.foldl (drawTargetsStep hb bLen) s).targets)[j]? = s.targets[j]? := by
  induction r with
  | nil => intro s j _; rfl
  | cons i r ih =>
    intro s j hout
    rw [List.foldl_cons, ih _ j (fun k hk => hout k (List.mem_cons_of_mem i hk)),
      targets_getElem?_drawTargetsStep_ne hb bLen s i j (hout i (List.mem_cons_self i r))]

/-- The closest-target move of one loop iteration agrees with the pure scan
step evaluated on any later target list `F` that (a) agrees with the
post-step list at index `i`, (b) has the same length, and (c) only differs
from the post-step list by raised hit flags. -/
theorem drawTargetsStep_closest_pure (hb : Target → Bullet → Bool) (bLen : ℕ)
    (s : DTState) (i : ℕ) (F : List Target)
    (hFi : F[i]? = (drawTargetsStep hb bLen s i).targets[i]?)
    (hlen : F.length = s.targets.length)
    (happrox : ∀ j : ℕ, optApprox ((drawTargetsStep hb bLen s i).targets[j]?) (F[j]?)) :
    (drawTargetsStep hb bLen s i).closest = closestStep F s.closest i := by
  cases hti : s.targets[i]? with
  | none =>
    have hs : drawTargetsStep hb bLen s i = s := by
      unfold drawTargetsStep; rw [hti]
    have hF : F[i]? = none := by rw [hFi, hs, hti]
    rw [hs]; unfold closestStep; rw [hF]
  | some t =>
    by_cases th : t.hit = true
    · have hs : drawTargetsStep hb bLen s i = s := by
        unfold drawTargetsStep; rw [hti]; simp [th]
      have hF : F[i]? = some t := by rw [hFi, hs, hti]
      rw [hs]; unfold closestStep; rw [hF]; simp [th]
    · cases hfb : findHitBullet hb t s.bullets bLen with
      | some j0 =>
        have hs : drawTargetsStep hb bLen s i =
            ⟨listModify s.targets i (fun t0 => { t0 with hit := true }),
             listModify s.bullets j0 (fun b => { b with status := BulletStatus.hit }),
             s.closest⟩ := by
          unfold drawTargetsStep; rw [hti]; simp [th, hfb]
        have hF : F[i]? = some { t with hit := true } := by
          rw [hFi, hs]
          show (listModify s.targets i fun t0 => { t0 with hit := true })[i]?
            = some { t with hit := true }
          rw [getElem?_listModify_self, hti]
          rfl
        rw [hs]; unfold closestStep; rw [hF]; simp
      | none =>
        have hstep : drawTargetsStep hb bLen s i =
            (match s.closest with
             | none => s
             | some cj =>
               match s.targets[cj]? with
               | none => s
               | some ct =>
                 if t.y + t.height > ct.y + ct.height then
                   ⟨s.targets, s.bullets, some i⟩
                 else s) := by
          unfold drawTargetsStep; rw [hti]; simp [th, hfb]
        cases hc : s.closest with
        | none =>
          have hs : drawTargetsStep hb bLen s i = s := by rw [hstep, hc]
          have hF : F[i]? = some t := by rw [hFi, hs, hti]
          rw [hs]; unfold closestStep; rw [hF]; simp [th, hc]
        | some cj =>
          cases hct : s.targets[cj]? with
          | none =>
            have hs : drawTargetsStep hb bLen s i = s := by
              rw [hstep, hc]; simp [hct]
            have hF : F[i]? = some t := by rw [hFi, hs, hti]
            have hcj : F[cj]? = none := by
              have h1 : s.targets.length ≤ cj := by
                simpa using List.getElem?_eq_none_iff.mp hct
              exact List.getElem?_eq_none_iff.mpr (hlen ▸ h1)
            rw [hs]; unfold closestStep; rw [hF]; simp [th, hc, hcj]
          | some ct =>
            by_cases hcmp : t.y + t.height > ct.y + ct.height
            · have hs : drawTargetsStep hb bLen s i =
                  ⟨s.targets, s.bullets, some i⟩ := by
                rw [hstep, hc]; simp [hct, hcmp]
              have hF : F[i]? = some t := by rw [hFi, hs]; exact hti
              have hcj : ∃ ct', F[cj]? = some ct' ∧ ct'.y = ct.y ∧
                  ct'.height = ct.height := by
                have ha := happrox cj
                rw [hs] at ha
                simp only at ha
                rw [hct] at ha
                cases hF' : F[cj]? with
                | none => rw [hF'] at ha; exact absurd ha (by simp [optApprox])
                | some ct' =>
                  rw [hF'] at ha
                  exact ⟨ct', rfl, ha.2.1, ha.2.2.2.1⟩
              obtain ⟨ct', hF', hy, hh⟩ := hcj
              rw [hs]; unfold closestStep; rw [hF]
              simp [th, hc, hF', hy, hh, hcmp]
            · have hs : drawTargetsStep hb bLen s i = s := by
                rw [hstep, hc]; simp [hct, hcmp]
              have hF : F[i]? = some t := by rw [hFi, hs, hti]
              have hcj : ∃ ct', F[cj]? = some ct' ∧ ct'.y = ct.y ∧
                  ct'.height = ct.height := by
                have ha := happrox cj
                rw [hs] at ha
                rw [hct] at ha
                cases hF' : F[cj]? with
                | none => rw [hF'] at ha; exact absurd ha (by simp [optApprox])
                | some ct' =>
                  rw [hF'] at ha
                  exact ⟨ct', rfl, ha.2.1, ha.2.2.2.1⟩
              obtain ⟨ct', hF', hy, hh⟩ := hcj
              rw [hs]; unfold closestStep; rw [hF]
              simp [th, hc, hF', hy, hh, hcmp]

/-- The closest reference computed by the interleaved `drawTargets` loop over
a duplicate-free index list equals the pure scan over the final target
list. -/
theorem foldDT_closest (hb : Target → Bullet → Bool) (bLen : ℕ) :
    ∀ (r : List ℕ) (s : DTState), r.Nodup →
      (r.foldl (drawTargetsStep hb bLen) s).closest
        = r.foldl (closestStep (r.foldl (drawTargetsStep hb bLen) s).targets)
            s.closest := by
  intro r
  induction r with
  | nil => intro s _; rfl
  | cons i r ih =>
    intro s hnd
    have hir : i ∉ r := (List.nodup_cons.mp hnd).1
    have hr : r.Nodup := (List.nodup_cons.mp hnd).2
    simp only [List.foldl_cons]
    rw [ih (drawTargetsStep hb bLen s i) hr]
    congr 1
    apply drawTargetsStep_closest_pure
    · exact targets_getElem?_foldDT_outside hb bLen r _ i (fun k hk => by
        intro hki; exact hir (hki ▸ hk))
    · rw [targets_length_foldDT, targets_length_drawTargetsStep]
    · intro j
      exact targets_approx_foldDT hb bLen r _ j

/-! ### Facts about the pure closest-target scan -/

theorem closestStep_none (ts : List Target) (i : ℕ) :
    closestStep ts none i = none := by
  unfold closestStep
  cases h : ts[i]? with
  | none => rfl
  | some t => by_cases th : t.hit = true <;> simp [th]

theorem foldl_closestStep_none (ts : List Target) (r : List ℕ) :
    r.foldl (closestStep ts) none = none := by
  induction r with
  | nil => rfl
  | cons i r ih => rw [List.foldl_cons, closestStep_none, ih]

theorem closestStep_isSome (ts : List Target) (c : Option ℕ) (i : ℕ)
    (h : c.isSome) : (closestStep ts c i).isSome := by
  unfold closestStep
  cases hti : ts[i]? with
  | none => exact h
  | some t =>
    by_cases th : t.hit = true
    · simp [th, h]
    · simp only [th]
      cases hc : c with
      | none => simp_all
      | some cj =>
        cases hct : ts[cj]? with
        | none => simp [hct]
        | some ct =>
          simp only [hct]
          by_cases hcmp : t.y + t.height > ct.y + ct.height
          · simp [hcmp]
          · simp [hcmp]

theorem foldl_closestStep_isSome (ts : List Target) (r : List ℕ) :
    ∀ c : Option ℕ, c.isSome → (r.foldl (closestStep ts) c).isSome := by
  induction r with
  | nil => intro c h; exact h
  | cons i r ih =>
    intro c h
    rw [List.foldl_cons]
    exact ih _ (closestStep_isSome ts c i h)

/-- The pure scan yields the absent reference exactly on the empty target
list. -/
theorem closestOf_eq_none_iff (ts : List Target) (len : ℕ) :
    closestOf ts len = none ↔ ts = [] := by
  constructor
  · intro h
    by_contra hne
    have hseed : (seedClosest ts).isSome := by
      simp [seedClosest, List.isEmpty_iff, hne]
    have := foldl_closestStep_isSome ts (List.range len) _ hseed
    rw [closestOf] at h
    rw [h] at this
    simp at this
  · intro h
    subst h
    rw [closestOf]
    have : seedClosest ([] : List Target) = none := by simp [seedClosest]
    rw [this, foldl_closestStep_none]

/-- Any reference produced by the pure scan is either the unconditional seed
`0` or points at an un-hit target. -/
theorem closestOf_spec (ts : List Target) (len : ℕ) (c : ℕ)
    (h : closestOf ts len = some c) :
    c = 0 ∨ ∃ t, ts[c]? = some t ∧ t.hit = false := by
  have main : ∀ (r : List ℕ) (o : Option ℕ),
      (∀ c0, o = some c0 → (c0 = 0 ∨ ∃ t, ts[c0]? = some t ∧ t.hit = false)) →
      ∀ c0, r.foldl (closestStep ts) o = some c0 →
        (c0 = 0 ∨ ∃ t, ts[c0]? = some t ∧ t.hit = false) := by
    intro r
    induction r with
    | nil => intro o ho c0 hc0; exact ho c0 hc0
    | cons i r ih =>
      intro o ho c0 hc0
      rw [List.foldl_cons] at hc0
      refine ih _ ?_ c0 hc0
      intro c1 hc1
      unfold closestStep at hc1
      cases hti : ts[i]? with
      | none =>
        simp only [hti] at hc1
        exact ho c1 hc1
      | some t =>
        simp only [hti] at hc1
        by_cases th : t.hit = true
        · rw [if_pos th] at hc1
          exact ho c1 hc1
        · rw [if_neg th] at hc1
          cases ho' : o with
          | none =>
            simp only [ho'] at hc1
            exact absurd hc1 (by simp)
          | some cj =>
            simp only [ho'] at hc1
            cases hct : ts[cj]? with
            | none =>
              simp only [hct] at hc1
              exact ho c1 (by rw [ho']; exact hc1)
            | some ct =>
              simp only [hct] at hc1
              by_cases hcmp : t.y + t.height > ct.y + ct.height
              · rw [if_pos hcmp] at hc1
                right
                obtain rfl : i = c1 := by simpa using hc1
                exact ⟨t, hti, by simpa using th⟩
              · rw [if_neg hcmp] at hc1
                exact ho c1 (by rw [ho']; exact hc1)
  refine main (List.range len) (seedClosest ts) ?_ c h
  intro c0 hc0
  left
  unfold seedClosest at hc0
  by_cases he : ts.isEmpty
  · simp [he] at hc0
  · simp [he] at hc0; omega

/-- The seed only depends on emptiness, hence only on the length. -/
theorem seedClosest_congr (ts ts' : List Target) (h : ts.length = ts'.length) :
    seedClosest ts = seedClosest ts' := by
  unfold seedClosest
  cases ts <;> cases ts' <;> simp_all

/-- Operation `drawTargets` stores exactly the pure closest-target scan of its final
target list. -/
theorem drawTargets_closestTarget (hb : Target → Bullet → Bool) (p : Playground) :
    (drawTargets hb p).closestTarget
      = closestOf (drawTargets hb p).targets p.targetsLen := by
  unfold drawTargets
  simp only
  rw [foldDT_closest hb p.bulletsLen (List.range p.targetsLen) _ (List.nodup_range _)]
  rw [closestOf]
  congr 1
  apply seedClosest_congr
  rw [targets_length_foldDT]

/-! ### Forward evolution of bullet statuses -/

theorem statusForward_refl (a : BulletStatus) : statusForward a a := Or.inl rfl

theorem statusForward_hit (a : BulletStatus) :
    statusForward a BulletStatus.hit := by
  cases a <;> simp [statusForward]

theorem statusForward_trans {a b c : BulletStatus} (h1 : statusForward a b)
    (h2 : statusForward b c) : statusForward a c := by
  cases a <;> cases b <;> cases c <;> simp_all [statusForward]

/-- One bullet-motion step only keeps a status or moves `inFlight` to
`miss`. -/
theorem statusForward_stepBullet (st : ℚ) (b : Bullet) :
    statusForward b.status (stepBullet st b).status := by
  unfold stepBullet
  by_cases h1 : b.status = BulletStatus.hit ∨ b.status = BulletStatus.miss
  · rw [if_pos h1]; exact statusForward_refl _
  · rw [if_neg h1]
    have hin : b.status = BulletStatus.inFlight := by
      cases hs : b.status <;> simp_all
    by_cases h2 : b.y + b.radius ≤ 0
    · rw [if_pos h2]; exact Or.inr (Or.inl hin)
    · rw [if_neg h2]; exact statusForward_refl _

theorem bullets_forward_drawBullets (p : Playground) (i : ℕ) (b : Bullet)
    (h : p.bullets[i]? = some b) :
    ∃ b', (drawBullets p).bullets[i]? = some b' ∧
      statusForward b.status b'.status := by
  by_cases hi : i < p.bulletsLen
  · refine ⟨stepBullet p.bulletStep b, ?_, statusForward_stepBullet _ _⟩
    show (mapUpTo p.bulletsLen (stepBullet p.bulletStep) p.bullets)[i]? = _
    rw [getElem?_mapUpTo_lt _ _ _ _ hi, h]
    rfl
  · refine ⟨b, ?_, statusForward_refl _⟩
    show (mapUpTo p.bulletsLen (stepBullet p.bulletStep) p.bullets)[i]? = _
    rw [getElem?_mapUpTo_ge _ _ _ _ (by omega)]
    exact h

theorem bullets_forward_drawTargetsStep (hb : Target → Bullet → Bool)
    (bLen : ℕ) (s : DTState) (i j : ℕ) (b : Bullet)
    (h : s.bullets[j]? = some b) :
    ∃ b', (drawTargetsStep hb bLen s i).bullets[j]? = some b' ∧
      statusForward b.status b'.status := by
  rcases drawTargetsStep_eq hb bLen s i with hs | ⟨t, j0, _, _, _, hs⟩ |
    ⟨t, cj, ct, _, _, _, _, _, _, hs⟩
  · rw [hs]; exact ⟨b, h, statusForward_refl _⟩
  · rw [hs]
    by_cases hj : j0 = j
    · subst hj
      refine ⟨{ b with status := BulletStatus.hit }, ?_, statusForward_hit _⟩
      show (listModify s.bullets j0 fun b0 =>
        { b0 with status := BulletStatus.hit })[j0]? = _
      rw [getElem?_listModify_self, h]
      rfl
    · refine ⟨b, ?_, statusForward_refl _⟩
      show (listModify s.bullets j0 fun b0 =>
        { b0 with status := BulletStatus.hit })[j]? = _
      rw [getElem?_listModify_ne _ _ _ _ hj]
      exact h
  · rw [hs]; exact ⟨b, h, statusForward_refl _⟩

theorem bullets_forward_foldDT (hb : Target → Bullet → Bool) (bLen : ℕ)
    (r : List ℕ) : ∀ (s : DTState) (j : ℕ) (b : Bullet),
    s.bullets[j]? = some b →
    ∃ b', ((r.foldl (drawTargetsStep hb bLen) s).bullets)[j]? = some b' ∧
      statusForward b.status b'.status := by
  induction r with
  | nil => intro s j b h; exact ⟨b, h, statusForward_refl _⟩
  | cons i r ih =>
    intro s j b h
    rw [List.foldl_cons]
    obtain ⟨b1, h1, f1⟩ := bullets_forward_drawTargetsStep hb bLen s i j b h
    obtain ⟨b2, h2, f2⟩ := ih (drawTargetsStep hb bLen s i) j b1 h1
    exact ⟨b2, h2, statusForward_trans f1 f2⟩

/-- Across one full per-frame advance a bullet's status only evolves along the
forward order. -/
theorem bullets_forward_draw (hb : Target → Bullet → Bool) (p : Playground)
    (i : ℕ) (b : Bullet) (h : p.bullets[i]? = some b) :
    ∃ b', (draw hb p).bullets[i]? = some b' ∧
      statusForward b.status b'.status := by
  obtain ⟨b1, h1, f1⟩ := bullets_forward_drawBullets p i b h
  obtain ⟨b2, h2, f2⟩ :=
    bullets_forward_foldDT hb (drawBullets p).bulletsLen
      (List.range (drawBullets p).targetsLen)
      ⟨(drawBullets p).targets, (drawBullets p).bullets,
        seedClosest (drawBullets p).targets⟩ i b1 h1
  exact ⟨b2, h2, statusForward_trans f1 f2⟩

/-! ### Counting lemmas for the stats update -/

theorem countHit_add_countMiss_le (l : List Bullet) :
    countHit l + countMiss l ≤ l.length := by
  induction l with
  | nil => simp [countHit, countMiss]
  | cons b l ih =>
    cases hb : b.status <;>
      simp [countHit, countMiss, List.countP_cons, hb] at ih ⊢ <;> omega

theorem countHit_add_countMiss_eq (l : List Bullet)
    (h : ∀ b ∈ l, b.status ≠ BulletStatus.inFlight) :
    countHit l + countMiss l = l.length := by
  induction l with
  | nil => simp [countHit, countMiss]
  | cons b l ih =>
    have hb' : b.status ≠ BulletStatus.inFlight := h b (List.mem_cons_self _ _)
    have ih' := ih fun b0 hb0 => h b0 (List.mem_cons_of_mem _ hb0)
    cases hb : b.status <;>
      simp [countHit, countMiss, List.countP_cons, hb] at ih' hb' ⊢ <;> omega

/-! ### The loop is inert on a uniform fresh row scanned with no bullets -/

theorem drawTargetsStep_uniform (hb : Target → Bullet → Bool) (s : DTState)
    (i : ℕ) (v : ℚ)
    (hu : ∀ (j : ℕ) (t : Target), s.targets[j]? = some t →
      t.hit = false ∧ t.y + t.height = v) :
    drawTargetsStep hb 0 s i = s := by
  rcases drawTargetsStep_eq hb 0 s i with hs | ⟨t, j0, hti, _, hfb, _⟩ |
    ⟨t, cj, ct, hti, _, _, _, hct, hcmp, _⟩
  · exact hs
  · rw [findHitBullet_zero] at hfb
    exact absurd hfb (by simp)
  · have h1 := (hu i t hti).2
    have h2 := (hu cj ct hct).2
    rw [h1, h2] at hcmp
    exact absurd hcmp (lt_irrefl v)

theorem foldDT_uniform (hb : Target → Bullet → Bool) (r : List ℕ)
    (s : DTState) (v : ℚ)
    (hu : ∀ (j : ℕ) (t : Target), s.targets[j]? = some t →
      t.hit = false ∧ t.y + t.height = v) :
    r.foldl (drawTargetsStep hb 0) s = s := by
  induction r with
  | nil => rfl
  | cons i r ih =>
    rw [List.foldl_cons, drawTargetsStep_uniform hb s i v hu, ih]

/-! ### The shape of `createTargets` -/

/-- Operation `createTargets` shifts the first `targetsLen` entries (un-hit ones only)
and appends the closed-form new row. -/
theorem createTargets_targets (p : Playground) :
    (createTargets p).targets =
      mapUpTo p.targetsLen
        (fun t => if t.hit then t
          else { t with y := t.y + t.height + perOfNum 1.8 p.width })
        p.targets
      ++ (List.range 12).map
        (fun i => ⟨perOfNum 1.8 p.width
            + (i : ℚ) * ((jsRound ((p.width - perOfNum 1.8 p.width) / ((12 : ℕ) : ℚ))
                - perOfNum 1.8 p.width) + perOfNum 1.8 p.width),
          perOfNum 1.8 p.width,
          jsRound ((p.width - perOfNum 1.8 p.width) / ((12 : ℕ) : ℚ))
            - perOfNum 1.8 p.width,
          jsRound ((p.width - perOfNum 1.8 p.width) / ((12 : ℕ) : ℚ))
            - perOfNum 1.8 p.width,
          false⟩ : ℕ → Target) := by
  simp only [createTargets]
  rw [appendRow_eq]

theorem createTargets_targetsLen (p : Playground) :
    (createTargets p).targetsLen = (createTargets p).targets.length := rfl

theorem createTargets_targets_length (p : Playground) :
    (createTargets p).targets.length = p.targets.length + 12 := by
  rw [createTargets_targets]
  simp [length_mapUpTo]

/-! ### The cached length counters -/

theorem lenInv_createBullet (p : Playground) (h : lenInv p) :
    lenInv (createBullet p) :=
  ⟨rfl, h.2⟩

theorem lenInv_createTargets (p : Playground) (h : lenInv p) :
    lenInv (createTargets p) :=
  ⟨h.1, rfl⟩

theorem bullets_length_draw (hb : Target → Bullet → Bool) (p : Playground) :
    (draw hb p).bullets.length = p.bullets.length := by
  show ((List.range (drawBullets p).targetsLen).foldl
    (drawTargetsStep hb (drawBullets p).bulletsLen)
    ⟨(drawBullets p).targets, (drawBullets p).bullets,
      seedClosest (drawBullets p).targets⟩).bullets.length = _
  rw [bullets_length_foldDT]
  exact length_mapUpTo _ _ _

theorem targets_length_draw (hb : Target → Bullet → Bool) (p : Playground) :
    (draw hb p).targets.length = p.targets.length := by
  show ((List.range (drawBullets p).targetsLen).foldl
    (drawTargetsStep hb (drawBullets p).bulletsLen)
    ⟨(drawBullets p).targets, (drawBullets p).bullets,
      seedClosest (drawBullets p).targets⟩).targets.length = _
  rw [targets_length_foldDT]
  rfl

theorem lenInv_draw (hb : Target → Bullet → Bool) (p : Playground)
    (h : lenInv p) : lenInv (draw hb p) := by
  refine ⟨?_, ?_⟩
  · show p.bulletsLen = _
    rw [bullets_length_draw]
    exact h.1
  · show p.targetsLen = _
    rw [targets_length_draw]
    exact h.2

theorem lenInv_newGame (hb : Target → Bullet → Bool) (p : Playground) :
    lenInv (newGame hb p) := by
  unfold newGame
  apply lenInv_draw
  apply lenInv_createTargets
  exact ⟨rfl, rfl⟩


/-! ### Claim theorems -/

set_option maxRecDepth 400000 in
/-- C3 counterexample: the bullet of the 2000×100 session ends its first
per-frame advance with status miss, yet after spawning a row and advancing
again (the opaque hit-test firing on the miss bullet) its status is hit — a
Miss bullet later became Hit, refuting the claim as stated. -/
theorem C3_counterexample :
    (qC3a.bullets[0]?).map Bullet.status = some BulletStatus.miss ∧
    ((draw hbC3 (createTargets qC3a)).bullets[0]?).map Bullet.status
      = some BulletStatus.hit := by
  with_unfolding_all decide

/-- C3 (amended): for every bullet, across any sequence of per-frame advances,
the status field only moves along the forward order inFlight → {hit, miss},
hit is terminal and a bullet never returns to inFlight; however a miss bullet
can still be re-labelled hit when the (opaque) target hit-test succeeds on it,
because the collision scan does not skip resolved bullets. -/
theorem C3_status_forward_iterated_draws (hb : Target → Bullet → Bool)
    (p : Playground) (n i : ℕ) (b : Bullet) (h : p.bullets[i]? = some b) :
    ∃ b', ((draw hb)^[n] p).bullets[i]? = some b' ∧
      statusForward b.status b'.status := by
  induction n generalizing p b with
  | zero => exact ⟨b, by simpa using h, statusForward_refl _⟩
  | succ n ih =>
    rw [Function.iterate_succ_apply]
    obtain ⟨b1, h1, f1⟩ := bullets_forward_draw hb p i b h
    obtain ⟨b2, h2, f2⟩ := ih (draw hb p) b1 h1
    exact ⟨b2, h2, statusForward_trans f1 f2⟩

set_option maxRecDepth 400000 in
/-- C3 witness: the forward-evolution theorem applied to the concrete fired
bullet of a 100×50 session across one advance. -/
theorem C3_status_forward_iterated_draws_witness :
    ∃ b', ((draw hbNone)^[1] pW3).bullets[0]? = some b' ∧
      statusForward (⟨50, 41, 1, BulletStatus.inFlight⟩ : Bullet).status b'.status :=
  C3_status_forward_iterated_draws hbNone pW3 1 0 ⟨50, 41, 1, BulletStatus.inFlight⟩
    (by with_unfolding_all decide)

set_option maxRecDepth 400000 in
/-- C4 counterexample: in the 1500×100 session the in-flight bullet at
`y = -14` (radius 15, step 1) is moved to `y = -15` by the advance, where
`y + radius ≤ 0` holds, yet its status remains inFlight — the claim's
decrement-then-check order would have marked it Miss. -/
theorem C4_counterexample :
    pC4.bullets[0]? = some ⟨750, -14, 15, BulletStatus.inFlight⟩ ∧
    (draw hbNone pC4).bullets[0]? = some ⟨750, -15, 15, BulletStatus.inFlight⟩ ∧
    ((-15 : ℚ) + 15 ≤ 0) := by
  with_unfolding_all decide

/-- C4 (amended): in one per-frame advance, every bullet with status inFlight
is first tested against the exit condition `y + radius ≤ 0` at its current
position: if it holds the bullet is marked miss and not moved, otherwise its
`y` is decremented by `bulletStep` and its status is unchanged; bullets
already hit or miss are left entirely unchanged. -/
theorem C4_bullet_motion_characterization (p : Playground) (i : ℕ) (b : Bullet)
    (hget : p.bullets[i]? = some b) (hlen : i < p.bulletsLen) :
    ((b.status = BulletStatus.hit ∨ b.status = BulletStatus.miss) →
      (drawBullets p).bullets[i]? = some b) ∧
    (b.status = BulletStatus.inFlight → b.y + b.radius ≤ 0 →
      (drawBullets p).bullets[i]? = some { b with status := BulletStatus.miss }) ∧
    (b.status = BulletStatus.inFlight → 0 < b.y + b.radius →
      (drawBullets p).bullets[i]? = some { b with y := b.y - p.bulletStep }) := by
  have hmap : (drawBullets p).bullets[i]? = some (stepBullet p.bulletStep b) := by
    show (mapUpTo p.bulletsLen (stepBullet p.bulletStep) p.bullets)[i]? = _
    rw [getElem?_mapUpTo_lt _ _ _ _ hlen, hget]
    rfl
  refine ⟨?_, ?_, ?_⟩
  · intro h1
    rw [hmap]
    unfold stepBullet
    rw [if_pos h1]
  · intro h1 h2
    rw [hmap]
    unfold stepBullet
    rw [if_neg (by simp [h1]), if_pos h2]
  · intro h1 h2
    rw [hmap]
    unfold stepBullet
    rw [if_neg (by simp [h1]), if_neg (not_le.mpr h2)]

set_option maxRecDepth 400000 in
/-- C4 witness: the motion characterization applied to the concrete fired
bullet of a 100×50 session (in flight, above the boundary, so it moves by
`bulletStep`). -/
theorem C4_bullet_motion_characterization_witness :
    (drawBullets pW3).bullets[0]? =
      some { x := 50, y := 41 - pW3.bulletStep, radius := 1,
             status := BulletStatus.inFlight } :=
  (C4_bullet_motion_characterization pW3 0 ⟨50, 41, 1, BulletStatus.inFlight⟩
    (by with_unfolding_all decide) (by with_unfolding_all decide)).2.2 rfl
    (by with_unfolding_all decide)

/-- C5: if the targets sequence is empty (and its cached length counter is
consistent, as it is in every reachable session state), a per-frame advance
leaves `closestTarget` absent and `gameOver` false; the embedding is total, so
no error occurs. -/
theorem C5_empty_targets_graceful (hb : Target → Bullet → Bool) (p : Playground)
    (h1 : p.targets = []) (h2 : p.targetsLen = 0) :
    (draw hb p).closestTarget = none ∧ (draw hb p).gameOver = false := by
  have hclosest : (drawTargets hb (drawBullets p)).closestTarget = none := by
    unfold drawTargets
    have hlen : (drawBullets p).targetsLen = 0 := h2
    have htgt : (drawBullets p).targets = [] := h1
    rw [hlen, htgt]
    simp [seedClosest]
  constructor
  · exact hclosest
  · show (checkGameOver (drawStats (drawTargets hb (drawBullets p)))).gameOver = false
    unfold checkGameOver
    have : (drawStats (drawTargets hb (drawBullets p))).closestTarget = none := hclosest
    rw [this]

/-- C5 witness: the graceful-degradation theorem applied to a freshly
constructed (not yet started) 100×50 playground, whose collections are
empty. -/
theorem C5_empty_targets_graceful_witness :
    (draw hbNone (mkPlayground 100 50)).closestTarget = none ∧
    (draw hbNone (mkPlayground 100 50)).gameOver = false :=
  C5_empty_targets_graceful hbNone (mkPlayground 100 50) rfl rfl

/-- C6: every call to target spawning appends exactly 12 new targets, with
gap = round(1.8% of the field width), size = round((width − gap)/12), each
target of width and height size − gap, the first at (gap, gap) and each
subsequent one offset horizontally by target-width + gap. -/
theorem C6_spawn_appends_row (p : Playground) :
    (createTargets p).targets.length = p.targets.length + 12 ∧
    (createTargets p).targets.drop p.targets.length =
      (List.range 12).map (fun i =>
        ⟨perOfNum 1.8 p.width
            + (i : ℚ) * ((jsRound ((p.width - perOfNum 1.8 p.width) / 12)
                - perOfNum 1.8 p.width) + perOfNum 1.8 p.width),
          perOfNum 1.8 p.width,
          jsRound ((p.width - perOfNum 1.8 p.width) / 12) - perOfNum 1.8 p.width,
          jsRound ((p.width - perOfNum 1.8 p.width) / 12) - perOfNum 1.8 p.width,
          false⟩ : ℕ → Target) := by
  refine ⟨createTargets_targets_length p, ?_⟩
  rw [createTargets_targets]
  have hlen : (mapUpTo p.targetsLen
      (fun t => if t.hit then t
        else { t with y := t.y + t.height + perOfNum 1.8 p.width })
      p.targets).length = p.targets.length := length_mapUpTo _ _ _
  rw [← hlen, List.drop_left]
  have h12 : ((12 : ℕ) : ℚ) = (12 : ℚ) := by norm_num
  rw [h12]

/-- C10: starting any session with `newGame`, after every public operation the
cached counters `bulletsLen` and `targetsLen` equal the lengths of `bullets`
and `targets`, so the per-frame loops always iterate over exactly the full
current sequences. -/
theorem C10_cached_lengths (hb : Target → Bullet → Bool) (p : Playground)
    (ops : List Op) : lenInv (applyOps hb (newGame hb p) ops) := by
  have main : ∀ (ops : List Op) (q : Playground), lenInv q →
      lenInv (applyOps hb q ops) := by
    intro ops
    induction ops with
    | nil => intro q h; exact h
    | cons op ops ih =>
      intro q h
      show lenInv ((op :: ops).foldl (applyOp hb) q)
      rw [List.foldl_cons]
      refine ih _ ?_
      cases op with
      | opNewGame => exact lenInv_newGame hb q
      | opCreateBullet => exact lenInv_createBullet q h
      | opCreateTargets => exact lenInv_createTargets q h
      | opDraw => exact lenInv_draw hb q h
  exact main ops _ (lenInv_newGame hb p)


/-- Reading `checkGameOver` off a state with a known closest reference and
target entry. -/
theorem gameOver_of_closest_some (p : Playground) (c : ℕ) (t : Target)
    (h1 : p.closestTarget = some c) (h2 : p.targets[c]? = some t) :
    (checkGameOver p).gameOver = decide (t.y + t.height ≥ p.gun.y) := by
  unfold checkGameOver
  simp only [h1, h2]

set_option maxRecDepth 400000 in
/-- C1 counterexample: a reachable session (all states built from `newGame`
by public operations) in which one per-frame advance sets `gameOver` to true
and the very next per-frame advance — with no `newGame` in between — resets
it to false, because the advance resolves the deepest surviving targets. -/
theorem C1_counterexample :
    pC1c.gameOver = true ∧ (draw hbC1 pC1c).gameOver = false := by
  with_unfolding_all decide

/-- C1 (amended): `gameOver` is not latched: every per-frame advance
recomputes it from scratch as "the closest-target scan of the post-frame
target list yields a reference whose target reaches the gun line"; it stays
true only while that recomputed condition holds and can return to false. -/
theorem C1_gameOver_recomputed_each_frame (hb : Target → Bullet → Bool)
    (p : Playground) :
    (draw hb p).gameOver = gameOverOf p.gun.y (draw hb p).targets p.targetsLen := by
  have h : (drawTargets hb (drawBullets p)).closestTarget
      = closestOf (drawTargets hb (drawBullets p)).targets p.targetsLen :=
    drawTargets_closestTarget hb (drawBullets p)
  show (checkGameOver (drawStats (drawTargets hb (drawBullets p)))).gameOver = _
  unfold checkGameOver gameOverOf
  simp only [drawStats]
  rw [h]
  rfl

set_option maxRecDepth 400000 in
/-- C2 counterexample: in a reachable session on a 100×50 field where the one
bullet resolves every target of the single row in one advance, the stored
closest reference is `targets[0]`, whose hit flag is true — `closestTarget`
is neither null nor an un-hit element. -/
theorem C2_counterexample :
    (draw hbAll pC2).closestTarget = some 0 ∧
    ((draw hbAll pC2).targets[0]?).map Target.hit = some true := by
  with_unfolding_all decide

/-- C2 (amended): after every per-frame advance `closestTarget` is null
exactly when `targets` is empty; otherwise it refers to an element of
`targets`, and that element has hit = false unless it is the unconditional
seed `targets[0]`, which can remain the stored closest reference even when
already hit. -/
theorem C2_closestTarget_characterization (hb : Target → Bullet → Bool)
    (p : Playground) :
    ((draw hb p).closestTarget = none ↔ (draw hb p).targets = []) ∧
    (∀ c : ℕ, (draw hb p).closestTarget = some c →
      ∃ t, (draw hb p).targets[c]? = some t ∧ (t.hit = false ∨ c = 0)) := by
  have h : (draw hb p).closestTarget
      = closestOf (draw hb p).targets p.targetsLen :=
    drawTargets_closestTarget hb (drawBullets p)
  constructor
  · rw [h]
    exact closestOf_eq_none_iff _ _
  · intro c hc
    rw [h] at hc
    rcases closestOf_spec _ _ _ hc with rfl | ⟨t, ht, hh⟩
    · have hne : (draw hb p).targets ≠ [] := by
        intro hnil
        rw [(closestOf_eq_none_iff _ _).mpr hnil] at hc
        exact absurd hc (by simp)
      cases htg : (draw hb p).targets with
      | nil => exact absurd htg hne
      | cons a l =>
        refine ⟨a, ?_, Or.inr rfl⟩
        simp
    · exact ⟨t, ht, Or.inl hh⟩

set_option maxRecDepth 400000 in
/-- C2 witness: the characterization applied to the all-hit session: the
stored reference 0 indeed denotes an element of the target list (here the
already-hit seed). -/
theorem C2_closestTarget_characterization_witness :
    ∃ t, (draw hbAll pC2).targets[0]? = some t ∧ (t.hit = false ∨ 0 = 0) :=
  (C2_closestTarget_characterization hbAll pC2).2 0 (by with_unfolding_all decide)


/-- One spawn call, read at an existing index `i < targetsLen`: the entry is
shifted when un-hit and kept when hit. -/
theorem createTargets_getElem?_lt (p : Playground) (i : ℕ) (t : Target)
    (hget : p.targets[i]? = some t) (hlt : i < p.targetsLen) :
    (createTargets p).targets[i]? =
      some (if t.hit then t
        else { t with y := t.y + t.height + perOfNum 1.8 p.width }) := by
  have hl : i < p.targets.length := by
    by_contra hcon
    push_neg at hcon
    rw [List.getElem?_eq_none hcon] at hget
    exact absurd hget (by simp)
  rw [createTargets_targets]
  rw [List.getElem?_append_left (by rw [length_mapUpTo]; exact hl)]
  rw [getElem?_mapUpTo_lt _ _ _ _ hlt, hget]
  rfl

/-- Iterating spawn `N` times moves a never-hit target down by exactly
`N · (height + gap)`. -/
theorem createTargets_iter_descent (N : ℕ) : ∀ (p : Playground) (i : ℕ)
    (t : Target), p.targetsLen = p.targets.length → p.targets[i]? = some t →
    t.hit = false →
    (createTargets^[N] p).targets[i]? =
      some { t with y := t.y + (N : ℚ) * (t.height + perOfNum 1.8 p.width) } := by
  induction N with
  | zero =>
    intro p i t hinv hget hh
    rw [Function.iterate_zero_apply]
    obtain ⟨tx, ty, tw, th0, thit⟩ := t
    simpa using hget
  | succ N ih =>
    intro p i t hinv hget hh
    rw [Function.iterate_succ_apply]
    have hl : i < p.targets.length := by
      by_contra hcon
      push_neg at hcon
      rw [List.getElem?_eq_none hcon] at hget
      exact absurd hget (by simp)
    have hlt : i < p.targetsLen := by rw [hinv]; exact hl
    have hget' : (createTargets p).targets[i]? =
        some { t with y := t.y + t.height + perOfNum 1.8 p.width } := by
      rw [createTargets_getElem?_lt p i t hget hlt, hh]
      rfl
    have hinv' : (createTargets p).targetsLen = (createTargets p).targets.length := rfl
    have hh' : ({ t with y := t.y + t.height + perOfNum 1.8 p.width } : Target).hit
        = false := hh
    have hres := ih (createTargets p) i _ hinv' hget' hh'
    have hw : (createTargets p).width = p.width := rfl
    rw [hw] at hres
    rw [hres]
    obtain ⟨tx, ty, tw, th0, thit⟩ := t
    simp only [Option.some.injEq, Target.mk.injEq, true_and, and_true]
    push_cast
    ring

/-- C7: each spawn call increases the `y` of every existing un-hit target by
exactly its height plus the gap, leaves every hit target unmoved, and a
never-hit target's cumulative descent after N further spawn calls is
N·(height + gap). -/
theorem C7_shift_unhit_descent (p : Playground) (i : ℕ) (t : Target) (N : ℕ)
    (hinv : p.targetsLen = p.targets.length)
    (hget : p.targets[i]? = some t) :
    (t.hit = true → (createTargets p).targets[i]? = some t) ∧
    (t.hit = false → (createTargets p).targets[i]? =
      some { t with y := t.y + t.height + perOfNum 1.8 p.width }) ∧
    (t.hit = false → (createTargets^[N] p).targets[i]? =
      some { t with y := t.y + (N : ℚ) * (t.height + perOfNum 1.8 p.width) }) := by
  have hl : i < p.targets.length := by
    by_contra hcon
    push_neg at hcon
    rw [List.getElem?_eq_none hcon] at hget
    exact absurd hget (by simp)
  have hlt : i < p.targetsLen := by rw [hinv]; exact hl
  refine ⟨?_, ?_, ?_⟩
  · intro hh
    rw [createTargets_getElem?_lt p i t hget hlt, hh]
    rfl
  · intro hh
    rw [createTargets_getElem?_lt p i t hget hlt, hh]
    rfl
  · intro hh
    exact createTargets_iter_descent N p i t hinv hget hh

set_option maxRecDepth 400000 in
/-- C7 witness: the descent theorem applied to the first target of a fresh
100×50 session, iterated twice: its `y` moves from 2 to 2 + 2·(6 + 2). -/
theorem C7_shift_unhit_descent_witness :
    (createTargets^[2] pW7).targets[0]? =
      some { x := 2, y := 2 + ((2 : ℕ) : ℚ) * (6 + perOfNum 1.8 pW7.width),
             width := 6, height := 6, hit := false } :=
  (C7_shift_unhit_descent pW7 0 ⟨2, 2, 6, 6, false⟩ 2
    (by with_unfolding_all decide) (by with_unfolding_all decide)).2.2 rfl

/-- C8: every per-frame advance pushes to the stats collaborator fired =
bullets.length, hit = number of hit-status bullets and miss = number of
miss-status bullets, recomputed from scratch over the whole (post-frame)
bullet sequence; consequently hit + miss ≤ bullets.length, with equality when
no bullet is in flight. -/
theorem C8_stats_recomputed (hb : Target → Bullet → Bool) (p : Playground)
    (hlen : p.bulletsLen = p.bullets.length) :
    (draw hb p).stats.fired = (draw hb p).bullets.length ∧
    (draw hb p).stats.hits = countHit (draw hb p).bullets ∧
    (draw hb p).stats.miss = countMiss (draw hb p).bullets ∧
    (draw hb p).stats.hits + (draw hb p).stats.miss ≤ (draw hb p).bullets.length ∧
    ((∀ b ∈ (draw hb p).bullets, b.status ≠ BulletStatus.inFlight) →
      (draw hb p).stats.hits + (draw hb p).stats.miss
        = (draw hb p).bullets.length) := by
  have hblen : (drawTargets hb (drawBullets p)).bullets.length
      = p.bullets.length := by
    show ((List.range (drawBullets p).targetsLen).foldl
      (drawTargetsStep hb (drawBullets p).bulletsLen)
      ⟨(drawBullets p).targets, (drawBullets p).bullets,
        seedClosest (drawBullets p).targets⟩).bullets.length = _
    rw [bullets_length_foldDT]
    exact length_mapUpTo _ _ _
  have htake : (drawTargets hb (drawBullets p)).bullets.take p.bulletsLen
      = (drawTargets hb (drawBullets p)).bullets := by
    rw [hlen, ← hblen]
    exact List.take_length _
  have hfired : (draw hb p).stats.fired = p.bulletsLen := rfl
  have hhits : (draw hb p).stats.hits
      = countHit ((drawTargets hb (drawBullets p)).bullets.take p.bulletsLen) := rfl
  have hmiss : (draw hb p).stats.miss
      = countMiss ((drawTargets hb (drawBullets p)).bullets.take p.bulletsLen) := rfl
  have hbul : (draw hb p).bullets = (drawTargets hb (drawBullets p)).bullets := rfl
  refine ⟨?_, ?_, ?_, ?_, ?_⟩
  · rw [hfired, hbul, hblen, hlen]
  · rw [hhits, htake, hbul]
  · rw [hmiss, htake, hbul]
  · rw [hhits, hmiss, htake, hbul]
    exact countHit_add_countMiss_le _
  · intro hall
    rw [hhits, hmiss, htake, hbul]
    refine countHit_add_countMiss_eq _ ?_
    intro b hbm
    exact hall b (by rw [hbul]; exact hbm)

set_option maxRecDepth 400000 in
/-- C8 witness: the stats theorem applied to a fresh 100×50 session (one
frame, no bullets): fired equals the bullet count. -/
theorem C8_stats_recomputed_witness :
    (draw hbNone pW7).stats.fired = (draw hbNone pW7).bullets.length :=
  (C8_stats_recomputed hbNone pW7 (by with_unfolding_all decide)).1


/-- Projection facts used to read fields through the per-frame phases without
forcing evaluation of the collision loop. -/
theorem checkGameOver_bullets (x : Playground) : (checkGameOver x).bullets = x.bullets := rfl

theorem checkGameOver_bulletsLen (x : Playground) : (checkGameOver x).bulletsLen = x.bulletsLen := rfl

theorem checkGameOver_targets (x : Playground) : (checkGameOver x).targets = x.targets := rfl

theorem checkGameOver_targetsLen (x : Playground) : (checkGameOver x).targetsLen = x.targetsLen := rfl

theorem checkGameOver_stats (x : Playground) : (checkGameOver x).stats = x.stats := rfl

theorem drawStats_bullets (x : Playground) : (drawStats x).bullets = x.bullets := rfl

theorem drawStats_bulletsLen (x : Playground) : (drawStats x).bulletsLen = x.bulletsLen := rfl

theorem drawStats_targets (x : Playground) : (drawStats x).targets = x.targets := rfl

theorem drawStats_targetsLen (x : Playground) : (drawStats x).targetsLen = x.targetsLen := rfl

theorem drawStats_closestTarget (x : Playground) : (drawStats x).closestTarget = x.closestTarget := rfl

theorem drawStats_gun (x : Playground) : (drawStats x).gun = x.gun := rfl

theorem drawStats_stats (x : Playground) : (drawStats x).stats
    = x.stats.update x.bulletsLen (countHit (x.bullets.take x.bulletsLen))
      (countMiss (x.bullets.take x.bulletsLen)) := rfl

theorem drawTargets_bulletsLen (hb : Target → Bullet → Bool) (x : Playground) :
    (drawTargets hb x).bulletsLen = x.bulletsLen := rfl

theorem drawTargets_targetsLen (hb : Target → Bullet → Bool) (x : Playground) :
    (drawTargets hb x).targetsLen = x.targetsLen := rfl

theorem drawTargets_stats (hb : Target → Bullet → Bool) (x : Playground) :
    (drawTargets hb x).stats = x.stats := rfl

theorem drawTargets_gun (hb : Target → Bullet → Bool) (x : Playground) :
    (drawTargets hb x).gun = x.gun := rfl

theorem drawBullets_targets (x : Playground) : (drawBullets x).targets = x.targets := rfl

theorem drawBullets_targetsLen (x : Playground) : (drawBullets x).targetsLen = x.targetsLen := rfl

theorem drawBullets_bulletsLen (x : Playground) : (drawBullets x).bulletsLen = x.bulletsLen := rfl

theorem drawBullets_stats (x : Playground) : (drawBullets x).stats = x.stats := rfl

theorem drawBullets_gun (x : Playground) : (drawBullets x).gun = x.gun := rfl

theorem drawBullets_bullets (x : Playground) : (drawBullets x).bullets
    = mapUpTo x.bulletsLen (stepBullet x.bulletStep) x.bullets := rfl

theorem createTargets_bullets (x : Playground) : (createTargets x).bullets = x.bullets := rfl

theorem createTargets_bulletsLen (x : Playground) : (createTargets x).bulletsLen = x.bulletsLen := rfl

theorem createTargets_stats (x : Playground) : (createTargets x).stats = x.stats := rfl

theorem createTargets_gun (x : Playground) : (createTargets x).gun = x.gun := rfl


/-- With no bullets in scope and all targets un-hit at one common depth, the
`drawTargets` loop only stores the seed reference. -/
theorem drawTargets_inert (hb : Target → Bullet → Bool) (q : Playground) (v : ℚ)
    (hq : q.bulletsLen = 0)
    (hu : ∀ (j : ℕ) (t : Target), q.targets[j]? = some t →
      t.hit = false ∧ t.y + t.height = v) :
    drawTargets hb q = { q with closestTarget := seedClosest q.targets } := by
  have hfold : (List.range q.targetsLen).foldl (drawTargetsStep hb q.bulletsLen)
      ⟨q.targets, q.bullets, seedClosest q.targets⟩
      = ⟨q.targets, q.bullets, seedClosest q.targets⟩ := by
    rw [hq]
    exact foldDT_uniform hb _ _ v hu
  simp only [drawTargets]
  rw [hfold]

set_option maxRecDepth 400000 in
/-- C9 counterexample: a constructed 1500×100 orchestrator (positive
dimensions) on which `newGame` ends with `gameOver = true`: the spawn
geometry places the fresh row below the gun line (gun.y = 2), and the frame
rendered by `newGame` immediately observes the terminal condition. -/
theorem C9_counterexample :
    (newGame hbNone (mkPlayground 1500 100)).gameOver = true ∧
    (newGame hbNone (mkPlayground 1500 100)).bullets = [] := by
  with_unfolding_all decide

set_option maxHeartbeats 1000000 in
/-- C9 (amended): for every constructed orchestrator whose geometry keeps the
fresh row above the gun line (size < gun.y, true for ordinary aspect ratios
such as 1200×800), after any call to `newGame` — including repeated calls —
`gameOver` is false, `bullets` is empty (counter 0), the stats collaborator
holds (0, 0, 0), and `targets` is exactly the 12 freshly spawned row targets;
all prior session state is replaced. -/
theorem C9_newGame_reset (hb : Target → Bullet → Bool) (p : Playground)
    (hgeom : jsRound ((p.width - perOfNum 1.8 p.width) / ((12 : ℕ) : ℚ))
      < p.gun.y) :
    (newGame hb p).gameOver = false ∧
    (newGame hb p).bullets = [] ∧
    (newGame hb p).bulletsLen = 0 ∧
    (newGame hb p).stats.fired = 0 ∧
    (newGame hb p).stats.hits = 0 ∧
    (newGame hb p).stats.miss = 0 ∧
    (newGame hb p).targets = (List.range 12).map (fun i =>
      ⟨perOfNum 1.8 p.width
          + (i : ℚ) * ((jsRound ((p.width - perOfNum 1.8 p.width) / ((12 : ℕ) : ℚ))
              - perOfNum 1.8 p.width) + perOfNum 1.8 p.width),
        perOfNum 1.8 p.width,
        jsRound ((p.width - perOfNum 1.8 p.width) / ((12 : ℕ) : ℚ))
          - perOfNum 1.8 p.width,
        jsRound ((p.width - perOfNum 1.8 p.width) / ((12 : ℕ) : ℚ))
          - perOfNum 1.8 p.width,
        false⟩ : ℕ → Target) ∧
    (newGame hb p).targetsLen = 12 := by
  have hrow : (createTargets
      { p with
        gameOver := false
        bullets := []
        bulletsLen := 0
        targets := []
        targetsLen := 0
        closestTarget := none
        stats := p.stats.update 0 0 0 }).targets
      = (List.range 12).map (fun i =>
        ⟨perOfNum 1.8 p.width
            + (i : ℚ) * ((jsRound ((p.width - perOfNum 1.8 p.width) / ((12 : ℕ) : ℚ))
                - perOfNum 1.8 p.width) + perOfNum 1.8 p.width),
          perOfNum 1.8 p.width,
          jsRound ((p.width - perOfNum 1.8 p.width) / ((12 : ℕ) : ℚ))
            - perOfNum 1.8 p.width,
          jsRound ((p.width - perOfNum 1.8 p.width) / ((12 : ℕ) : ℚ))
            - perOfNum 1.8 p.width,
          false⟩ : ℕ → Target) := by
    rw [createTargets_targets]
    rfl
  have hu : ∀ (j : ℕ) (t : Target),
      (drawBullets (createTargets
        { p with
          gameOver := false
          bullets := []
          bulletsLen := 0
          targets := []
          targetsLen := 0
          closestTarget := none
          stats := p.stats.update 0 0 0 })).targets[j]? = some t →
      t.hit = false ∧ t.y + t.height
        = perOfNum 1.8 p.width
          + (jsRound ((p.width - perOfNum 1.8 p.width) / ((12 : ℕ) : ℚ))
            - perOfNum 1.8 p.width) := by
    intro j t ht
    have ht2 : ((List.range 12).map (fun i =>
        ⟨perOfNum 1.8 p.width
            + (i : ℚ) * ((jsRound ((p.width - perOfNum 1.8 p.width) / ((12 : ℕ) : ℚ))
                - perOfNum 1.8 p.width) + perOfNum 1.8 p.width),
          perOfNum 1.8 p.width,
          jsRound ((p.width - perOfNum 1.8 p.width) / ((12 : ℕ) : ℚ))
            - perOfNum 1.8 p.width,
          jsRound ((p.width - perOfNum 1.8 p.width) / ((12 : ℕ) : ℚ))
            - perOfNum 1.8 p.width,
          false⟩ : ℕ → Target))[j]? = some t := by
      rw [← hrow]
      exact ht
    rw [List.getElem?_map] at ht2
    cases hr : (List.range 12)[j]? with
    | none =>
      rw [hr] at ht2
      exact absurd ht2 (by simp)
    | some k =>
      rw [hr] at ht2
      obtain rfl : (⟨perOfNum 1.8 p.width
          + (k : ℚ) * ((jsRound ((p.width - perOfNum 1.8 p.width) / ((12 : ℕ) : ℚ))
              - perOfNum 1.8 p.width) + perOfNum 1.8 p.width),
        perOfNum 1.8 p.width,
        jsRound ((p.width - perOfNum 1.8 p.width) / ((12 : ℕ) : ℚ))
          - perOfNum 1.8 p.width,
        jsRound ((p.width - perOfNum 1.8 p.width) / ((12 : ℕ) : ℚ))
          - perOfNum 1.8 p.width,
        false⟩ : Target) = t := by simpa using ht2
      exact ⟨rfl, rfl⟩
  have hX : drawTargets hb (drawBullets (createTargets
      { p with
        gameOver := false
        bullets := []
        bulletsLen := 0
        targets := []
        targetsLen := 0
        closestTarget := none
        stats := p.stats.update 0 0 0 }))
      = { drawBullets (createTargets
          { p with
            gameOver := false
            bullets := []
            bulletsLen := 0
            targets := []
            targetsLen := 0
            closestTarget := none
            stats := p.stats.update 0 0 0 }) with
          closestTarget := seedClosest (drawBullets (createTargets
            { p with
              gameOver := false
              bullets := []
              bulletsLen := 0
              targets := []
              targetsLen := 0
              closestTarget := none
              stats := p.stats.update 0 0 0 })).targets } :=
    drawTargets_inert hb _ _ rfl hu
  have hseed : seedClosest (drawBullets (createTargets
      { p with
        gameOver := false
        bullets := []
        bulletsLen := 0
        targets := []
        targetsLen := 0
        closestTarget := none
        stats := p.stats.update 0 0 0 })).targets = some 0 := by
    have htg : (drawBullets (createTargets
        { p with
          gameOver := false
          bullets := []
          bulletsLen := 0
          targets := []
          targetsLen := 0
          closestTarget := none
          stats := p.stats.update 0 0 0 })).targets
        = (List.range 12).map (fun i =>
          ⟨perOfNum 1.8 p.width
              + (i : ℚ) * ((jsRound ((p.width - perOfNum 1.8 p.width) / ((12 : ℕ) : ℚ))
                  - perOfNum 1.8 p.width) + perOfNum 1.8 p.width),
            perOfNum 1.8 p.width,
            jsRound ((p.width - perOfNum 1.8 p.width) / ((12 : ℕ) : ℚ))
              - perOfNum 1.8 p.width,
            jsRound ((p.width - perOfNum 1.8 p.width) / ((12 : ℕ) : ℚ))
              - perOfNum 1.8 p.width,
            false⟩ : ℕ → Target) := hrow
    rw [htg]
    rfl
  have hXclosest : (drawTargets hb (drawBullets (createTargets
      { p with
        gameOver := false
        bullets := []
        bulletsLen := 0
        targets := []
        targetsLen := 0
        closestTarget := none
        stats := p.stats.update 0 0 0 }))).closestTarget = some 0 := by
    rw [hX]
    exact hseed
  have hXtargets : (drawTargets hb (drawBullets (createTargets
      { p with
        gameOver := false
        bullets := []
        bulletsLen := 0
        targets := []
        targetsLen := 0
        closestTarget := none
        stats := p.stats.update 0 0 0 }))).targets
      = (List.range 12).map (fun i =>
        ⟨perOfNum 1.8 p.width
            + (i : ℚ) * ((jsRound ((p.width - perOfNum 1.8 p.width) / ((12 : ℕ) : ℚ))
                - perOfNum 1.8 p.width) + perOfNum 1.8 p.width),
          perOfNum 1.8 p.width,
          jsRound ((p.width - perOfNum 1.8 p.width) / ((12 : ℕ) : ℚ))
            - perOfNum 1.8 p.width,
          jsRound ((p.width - perOfNum 1.8 p.width) / ((12 : ℕ) : ℚ))
            - perOfNum 1.8 p.width,
          false⟩ : ℕ → Target) := by
    rw [hX]
    exact hrow
  have hXbullets : (drawTargets hb (drawBullets (createTargets
      { p with
        gameOver := false
        bullets := []
        bulletsLen := 0
        targets := []
        targetsLen := 0
        closestTarget := none
        stats := p.stats.update 0 0 0 }))).bullets = [] := by
    rw [hX]
    rw [drawBullets_bullets, createTargets_bullets, createTargets_bulletsLen]
    rfl
  refine ⟨?_, ?_, ?_, ?_, ?_, ?_, ?_, ?_⟩
  · show (checkGameOver (drawStats (drawTargets hb (drawBullets (createTargets
      { p with
        gameOver := false
        bullets := []
        bulletsLen := 0
        targets := []
        targetsLen := 0
        closestTarget := none
        stats := p.stats.update 0 0 0 }))))).gameOver = false
    have h1 : (drawStats (drawTargets hb (drawBullets (createTargets
      { p with
        gameOver := false
        bullets := []
        bulletsLen := 0
        targets := []
        targetsLen := 0
        closestTarget := none
        stats := p.stats.update 0 0 0 })))).closestTarget = some 0 := by
      rw [drawStats_closestTarget]
      exact hXclosest
    have h2 : (drawStats (drawTargets hb (drawBullets (createTargets
      { p with
        gameOver := false
        bullets := []
        bulletsLen := 0
        targets := []
        targetsLen := 0
        closestTarget := none
        stats := p.stats.update 0 0 0 })))).targets[0]? = some (⟨perOfNum 1.8 p.width
          + ((0 : ℕ) : ℚ) * ((jsRound ((p.width - perOfNum 1.8 p.width) / ((12 : ℕ) : ℚ))
              - perOfNum 1.8 p.width) + perOfNum 1.8 p.width),
        perOfNum 1.8 p.width,
        jsRound ((p.width - perOfNum 1.8 p.width) / ((12 : ℕ) : ℚ))
          - perOfNum 1.8 p.width,
        jsRound ((p.width - perOfNum 1.8 p.width) / ((12 : ℕ) : ℚ))
          - perOfNum 1.8 p.width,
        false⟩ : Target) := by
      rw [drawStats_targets, hXtargets]
      rfl
    rw [gameOver_of_closest_some _ 0 (⟨perOfNum 1.8 p.width
          + ((0 : ℕ) : ℚ) * ((jsRound ((p.width - perOfNum 1.8 p.width) / ((12 : ℕ) : ℚ))
              - perOfNum 1.8 p.width) + perOfNum 1.8 p.width),
        perOfNum 1.8 p.width,
        jsRound ((p.width - perOfNum 1.8 p.width) / ((12 : ℕ) : ℚ))
          - perOfNum 1.8 p.width,
        jsRound ((p.width - perOfNum 1.8 p.width) / ((12 : ℕ) : ℚ))
          - perOfNum 1.8 p.width,
        false⟩ : Target) h1 h2]
    apply decide_eq_false
    intro hcon
    rw [drawStats_gun, drawTargets_gun, drawBullets_gun, createTargets_gun] at hcon
    have hgun : ({ p with
        gameOver := false
        bullets := []
        bulletsLen := 0
        targets := []
        targetsLen := 0
        closestTarget := none
        stats := p.stats.update 0 0 0 } : Playground).gun = p.gun := rfl
    rw [hgun] at hcon
    have hcon2 : jsRound ((p.width - perOfNum 1.8 p.width) / ((12 : ℕ) : ℚ))
        ≥ p.gun.y := by
      calc jsRound ((p.width - perOfNum 1.8 p.width) / ((12 : ℕ) : ℚ))
          = ((⟨perOfNum 1.8 p.width
          + ((0 : ℕ) : ℚ) * ((jsRound ((p.width - perOfNum 1.8 p.width) / ((12 : ℕ) : ℚ))
              - perOfNum 1.8 p.width) + perOfNum 1.8 p.width),
        perOfNum 1.8 p.width,
        jsRound ((p.width - perOfNum 1.8 p.width) / ((12 : ℕ) : ℚ))
          - perOfNum 1.8 p.width,
        jsRound ((p.width - perOfNum 1.8 p.width) / ((12 : ℕ) : ℚ))
          - perOfNum 1.8 p.width,
        false⟩ : Target)).y + ((⟨perOfNum 1.8 p.width
          + ((0 : ℕ) : ℚ) * ((jsRound ((p.width - perOfNum 1.8 p.width) / ((12 : ℕ) : ℚ))
              - perOfNum 1.8 p.width) + perOfNum 1.8 p.width),
        perOfNum 1.8 p.width,
        jsRound ((p.width - perOfNum 1.8 p.width) / ((12 : ℕ) : ℚ))
          - perOfNum 1.8 p.width,
        jsRound ((p.width - perOfNum 1.8 p.width) / ((12 : ℕ) : ℚ))
          - perOfNum 1.8 p.width,
        false⟩ : Target)).height := by ring
        _ ≥ p.gun.y := hcon
    exact absurd hcon2 (not_le.mpr hgeom)
  · show (checkGameOver (drawStats (drawTargets hb (drawBullets (createTargets
      { p with
        gameOver := false
        bullets := []
        bulletsLen := 0
        targets := []
        targetsLen := 0
        closestTarget := none
        stats := p.stats.update 0 0 0 }))))).bullets = []
    rw [checkGameOver_bullets, drawStats_bullets]
    exact hXbullets
  · show (checkGameOver (drawStats (drawTargets hb (drawBullets (createTargets
      { p with
        gameOver := false
        bullets := []
        bulletsLen := 0
        targets := []
        targetsLen := 0
        closestTarget := none
        stats := p.stats.update 0 0 0 }))))).bulletsLen = 0
    rw [checkGameOver_bulletsLen, drawStats_bulletsLen, drawTargets_bulletsLen,
      drawBullets_bulletsLen, createTargets_bulletsLen]
  · show (checkGameOver (drawStats (drawTargets hb (drawBullets (createTargets
      { p with
        gameOver := false
        bullets := []
        bulletsLen := 0
        targets := []
        targetsLen := 0
        closestTarget := none
        stats := p.stats.update 0 0 0 }))))).stats.fired = 0
    rw [checkGameOver_stats, drawStats_stats, drawTargets_stats, drawTargets_bulletsLen,
      drawBullets_stats, drawBullets_bulletsLen, createTargets_stats,
      createTargets_bulletsLen, hXbullets]
    rfl
  · show (checkGameOver (drawStats (drawTargets hb (drawBullets (createTargets
      { p with
        gameOver := false
        bullets := []
        bulletsLen := 0
        targets := []
        targetsLen := 0
        closestTarget := none
        stats := p.stats.update 0 0 0 }))))).stats.hits = 0
    rw [checkGameOver_stats, drawStats_stats, drawTargets_stats, drawTargets_bulletsLen,
      drawBullets_stats, drawBullets_bulletsLen, createTargets_stats,
      createTargets_bulletsLen, hXbullets]
    rfl
  · show (checkGameOver (drawStats (drawTargets hb (drawBullets (createTargets
      { p with
        gameOver := false
        bullets := []
        bulletsLen := 0
        targets := []
        targetsLen := 0
        closestTarget := none
        stats := p.stats.update 0 0 0 }))))).stats.miss = 0
    rw [checkGameOver_stats, drawStats_stats, drawTargets_stats, drawTargets_bulletsLen,
      drawBullets_stats, drawBullets_bulletsLen, createTargets_stats,
      createTargets_bulletsLen, hXbullets]
    rfl
  · show (checkGameOver (drawStats (drawTargets hb (drawBullets (createTargets
      { p with
        gameOver := false
        bullets := []
        bulletsLen := 0
        targets := []
        targetsLen := 0
        closestTarget := none
        stats := p.stats.update 0 0 0 }))))).targets = _
    rw [checkGameOver_targets, drawStats_targets]
    exact hXtargets
  · show (checkGameOver (drawStats (drawTargets hb (drawBullets (createTargets
      { p with
        gameOver := false
        bullets := []
        bulletsLen := 0
        targets := []
        targetsLen := 0
        closestTarget := none
        stats := p.stats.update 0 0 0 }))))).targetsLen = 12
    rw [checkGameOver_targetsLen, drawStats_targetsLen, drawTargets_targetsLen,
      drawBullets_targetsLen, createTargets_targetsLen, hrow]
    simp

set_option maxRecDepth 400000 in
/-- C9 witness: the reset theorem applied to a 1200×800 orchestrator, whose
geometry satisfies size = 98 < 668 = gun.y. -/
theorem C9_newGame_reset_witness :
    (newGame hbNone (mkPlayground 1200 800)).gameOver = false :=
  (C9_newGame_reset hbNone (mkPlayground 1200 800)
    (by with_unfolding_all decide)).1

end ShootingRange
